import Mathlib

/-!
Verification development for the `treas_analyzer` core
(`src/treas_analyzer/main.py`).

The Python source is shallowly embedded: its pure computations become Lean
functions over `ℚ` (modelling IEEE floats by exact rationals — every number
the program manipulates here is small and the claims under study are about
branch structure and exact formulas, not rounding), its fallible paths
become `Option`/`Except`, and its file/clock inputs (marker file contents,
current Eastern time) become explicit parameters.  Dates are modelled as
`(year, month, day)` triples of naturals; time of day as seconds after
midnight.
-/

/-- MatField is one row of the `MATURITY_FIELDS` table of `main.py`:
the Treasury XML field name, the maturity label, and years to maturity. -/
structure MatField where
  xmlName : String
  label : String
  years : ℚ
deriving DecidableEq

/-- MATURITY_FIELDS mirrors the `MATURITY_FIELDS` dict of `main.py`
(insertion order of the Python dict preserved). -/
def MATURITY_FIELDS : List MatField :=
  [⟨"BC_1MONTH", "1M", 1/12⟩,
   ⟨"BC_2MONTH", "2M", 2/12⟩,
   ⟨"BC_3MONTH", "3M", 3/12⟩,
   ⟨"BC_6MONTH", "6M", 6/12⟩,
   ⟨"BC_1YEAR", "1Y", 1⟩,
   ⟨"BC_2YEAR", "2Y", 2⟩,
   ⟨"BC_3YEAR", "3Y", 3⟩,
   ⟨"BC_5YEAR", "5Y", 5⟩,
   ⟨"BC_7YEAR", "7Y", 7⟩,
   ⟨"BC_10YEAR", "10Y", 10⟩,
   ⟨"BC_20YEAR", "20Y", 20⟩,
   ⟨"BC_30YEAR", "30Y", 30⟩]

/-- MATURITY_ORDER mirrors the `MATURITY_ORDER` list of `main.py`. -/
def MATURITY_ORDER : List String :=
  ["1M", "2M", "3M", "6M", "1Y", "2Y", "3Y", "5Y", "7Y", "10Y", "20Y", "30Y"]

/-!
Freshness policy (`should_regenerate`, main.py lines 126-143).

The Python function reads the marker file through `load_last_generated_ymd`
and the Eastern-time clock through `_et_now()`; those two ambient inputs are
passed explicitly here: `last_generated` is the marker's recorded date
(`none` when the marker file is missing or unreadable), `today` is the
current Eastern calendar date, and `now_sec` is the current Eastern time of
day in seconds after midnight (so `dt.time(hour=12, minute=0)` is 43200).
Dates are compared as opaque values, which is all the Python code does.
-/

/-- should_regenerate embeds `should_regenerate` of `main.py`:
missing artifacts force regeneration; otherwise a marker dated today
suppresses it; otherwise regenerate exactly from noon Eastern onwards. -/
def should_regenerate (files_exist : Bool) (last_generated : Option Nat)
    (today : Nat) (now_sec : Nat) : Bool :=
  if !files_exist then true
  else if last_generated = some today then false
  else if 43200 ≤ now_sec then true
  else false

/-!
Trend data (`Trend` dataclass and `summarize` lines 238-243 of main.py).
-/

/-- Trend embeds the `Trend` dataclass of `main.py`. -/
structure Trend where
  slope_per_day : ℚ
  slope_bps_per_month : ℚ
  r2 : ℚ
deriving DecidableEq

/-- adjPct is the quantity `adj_pct = tr.slope_bps_per_month * max(tr.r2, 0.3) / 100.0`
computed inside `summarize` (main.py lines 240-241). -/
def adjPct (tr : Trend) : ℚ :=
  tr.slope_bps_per_month * max tr.r2 (3/10) / 100

/-- trend_effect embeds the `trend_effect` computation of `summarize`
(main.py lines 238-242): zero when there is no trend, otherwise
`-0.5 * max(adj_pct, 0.0) + 0.25 * min(adj_pct, 0.0)`. -/
def trend_effect (tr : Option Trend) : ℚ :=
  match tr with
  | none => 0
  | some t => -(1/2) * max (adjPct t) 0 + (1/4) * min (adjPct t) 0

/-- value_score embeds `value_score = current + trend_effect`
(main.py line 243). -/
def value_score (current : ℚ) (tr : Option Trend) : ℚ :=
  current + trend_effect tr

/-!
Trend estimator (`compute_trend`, main.py lines 196-215).

The two pandas Series arguments are index-aligned columns of one frame, so
they are embedded as two equal-length lists zipped positionally; dates enter
as their `toordinal()` day numbers.  `np.polyfit(x, y, 1)` is embedded by
the ordinary-least-squares closed form, which is what `polyfit` computes for
a degree-1 fit whenever the x values are not all identical (the only regime
the program meets: distinct feed dates).
-/

/-- presentPairs embeds the `mask = values.notna()` filtering of
`compute_trend`: the (date, value) pairs whose value is present. -/
def presentPairs (dates : List Nat) (values : List (Option ℚ)) : List (Nat × ℚ) :=
  (dates.zip values).filterMap (fun p => p.2.map (fun v => (p.1, v)))

/-- olsFit embeds `np.polyfit(x, y, 1)` via the least-squares closed form,
returning (slope, intercept). -/
def olsFit (pts : List (Nat × ℚ)) : ℚ × ℚ :=
  let n : ℚ := pts.length
  let xbar := (pts.map (fun p => (p.1 : ℚ))).sum / n
  let ybar := (pts.map (fun p => p.2)).sum / n
  let sxx := (pts.map (fun p => ((p.1 : ℚ) - xbar) ^ 2)).sum
  let sxy := (pts.map (fun p => ((p.1 : ℚ) - xbar) * (p.2 - ybar))).sum
  (sxy / sxx, ybar - sxy / sxx * xbar)

/-- ssRes embeds `ss_res = np.sum((y_np - y_pred) ** 2)` of `compute_trend`. -/
def ssRes (pts : List (Nat × ℚ)) : ℚ :=
  let f := olsFit pts
  (pts.map (fun p => (p.2 - (f.1 * (p.1 : ℚ) + f.2)) ^ 2)).sum

/-- ssTot embeds `ss_tot = np.sum((y_np - np.mean(y_np)) ** 2)` of
`compute_trend`. -/
def ssTot (pts : List (Nat × ℚ)) : ℚ :=
  let ybar := (pts.map (fun p => p.2)).sum / pts.length
  (pts.map (fun p => (p.2 - ybar) ^ 2)).sum

/-- compute_trend embeds `compute_trend` of `main.py` (lines 196-215):
fewer than 3 present points gives no trend; otherwise an OLS line is fitted,
R² is `1 - ss_res / ss_tot` guarded by `ss_tot > 0` (else 0), and the slope
is also reported as basis points per 30-day month (`slope * 30 * 100`). -/
def compute_trend (dates : List Nat) (values : List (Option ℚ)) : Option Trend :=
  let pts := presentPairs dates values
  if pts.length < 3 then none
  else
    let slope := (olsFit pts).1
    let r2 : ℚ := if 0 < ssTot pts then 1 - ssRes pts / ssTot pts else 0
    some { slope_per_day := slope, slope_bps_per_month := slope * 30 * 100, r2 := r2 }

/-!
Feed parser (`parse_feed`, main.py lines 156-193).

`parse_feed` receives raw XML text and immediately structures it with
`ElementTree`; the XML layer itself has no decision logic, so the embedding
starts from its output: the list of `atom:entry` elements.  Each entry
either lacks an `m:properties` child (`props is None`) or carries one, and a
properties element exposes the text of its `d:NEW_DATE` child (`none` when
the element is absent or its text is `None` — both make the Python code
`continue`) together with the texts of the value elements, keyed by XML
field name (`List.lookup` returns the first match exactly as
`Element.find` does; a key mapped to `none` models an element whose
`.text` is `None`).

String scrutiny is done on `String.data` character lists; `stripChars`
models Python `str.strip()` over the whitespace the feed can contain.
-/

/-- EntryProps embeds one `atom:content/m:properties` element: the text of
its `d:NEW_DATE` child and the texts of its value children. -/
structure EntryProps where
  newDateText : Option String
  fieldText : List (String × Option String)
deriving DecidableEq

/-- RawEntry embeds one `atom:entry` element; `props = none` models
`entry.find("atom:content/m:properties") is None`. -/
structure RawEntry where
  props : Option EntryProps
deriving DecidableEq

/-- stripChars models Python `str.strip()`: drop leading and trailing
whitespace characters. -/
def stripChars (cs : List Char) : List Char :=
  ((cs.dropWhile Char.isWhitespace).reverse.dropWhile Char.isWhitespace).reverse

/-- digitsVal is the numeric value of a list of decimal digit characters. -/
def digitsVal (cs : List Char) : Nat :=
  cs.foldl (fun acc c => 10 * acc + (c.toNat - 48)) 0

/-- pyFloatOfString models Python `float(text)` on the decimal literals the
Treasury feed carries (optional sign, digits, optional fractional part,
surrounding whitespace): `none` models the `ValueError` branch.  Exponent
and inf/nan spellings never occur in this feed and are not modelled. -/
def pyFloatOfString (s : String) : Option ℚ :=
  let body := stripChars s.data
  let signed : ℚ × List Char :=
    match body with
    | '+' :: rest => (1, rest)
    | '-' :: rest => (-1, rest)
    | cs => (1, cs)
  let intPart := signed.2.takeWhile (fun c => c ≠ '.')
  let rest := signed.2.dropWhile (fun c => c ≠ '.')
  if intPart.all Char.isDigit then
    match rest with
    | [] => if intPart.isEmpty then none else some (signed.1 * digitsVal intPart)
    | _ :: frac =>
      if frac.all Char.isDigit && !(intPart.isEmpty && frac.isEmpty) then
        some (signed.1 * ((digitsVal intPart : ℚ) + (digitsVal frac : ℚ) / 10 ^ frac.length))
      else none
  else none

/-- isLeapYear is the Gregorian leap-year rule used by `datetime.date`. -/
def isLeapYear (y : Nat) : Bool :=
  (y % 4 == 0 && y % 100 != 0) || y % 400 == 0

/-- daysInMonth is the day-of-month bound `datetime.date` validates
against. -/
def daysInMonth (y m : Nat) : Nat :=
  if m = 2 then (if isLeapYear y then 29 else 28)
  else if m = 4 ∨ m = 6 ∨ m = 9 ∨ m = 11 then 30
  else 31

/-- isoDate? models `datetime.date.fromisoformat` on the dashed
`YYYY-MM-DD` form this program feeds it (the only form the Treasury feed
produces): `none` models the `ValueError` raise. -/
def isoDate? (cs : List Char) : Option (Nat × Nat × Nat) :=
  match cs with
  | [y1, y2, y3, y4, '-', m1, m2, '-', d1, d2] =>
    if [y1, y2, y3, y4, m1, m2, d1, d2].all Char.isDigit then
      let y := digitsVal [y1, y2, y3, y4]
      let m := digitsVal [m1, m2]
      let d := digitsVal [d1, d2]
      if 1 ≤ y && 1 ≤ m && m ≤ 12 && 1 ≤ d && d ≤ daysInMonth y m then
        some (y, m, d)
      else none
    else none
  | _ => none

/-- isoTimeOk models the `HH:MM[:SS]` time-of-day grammar accepted after
the date by `datetime.datetime.fromisoformat` (the feed emits `00:00:00`;
fractional seconds and offsets never occur and are not modelled). -/
def isoTimeOk (cs : List Char) : Bool :=
  match cs with
  | [h1, h2, ':', m1, m2] =>
    [h1, h2, m1, m2].all Char.isDigit &&
      digitsVal [h1, h2] < 24 && digitsVal [m1, m2] < 60
  | [h1, h2, ':', m1, m2, ':', s1, s2] =>
    [h1, h2, m1, m2, s1, s2].all Char.isDigit &&
      digitsVal [h1, h2] < 24 && digitsVal [m1, m2] < 60 && digitsVal [s1, s2] < 60
  | _ => false

/-- pyDatetimeDate? models `datetime.datetime.fromisoformat(s).date()`:
a valid `YYYY-MM-DD`, optionally followed by a `T` or space separator and a
valid time of day; `none` models the `ValueError` raise. -/
def pyDatetimeDate? (cs : List Char) : Option (Nat × Nat × Nat) :=
  match cs.drop 10 with
  | [] => isoDate? cs
  | sep :: timePart =>
    if (sep == 'T' || sep == ' ') && isoTimeOk timePart then isoDate? (cs.take 10)
    else none

/-- entryDate? embeds the date extraction of `parse_feed` (main.py lines
169-173): strip the element text, try the datetime parser, and on failure
fall back to `date.fromisoformat(date_str[:10])`.  The fallback is not
guarded by any `except`, so its failure — `none` here — propagates out of
`parse_feed` as an exception. -/
def entryDate? (raw : String) : Option (Nat × Nat × Nat) :=
  let date_str := stripChars raw.data
  match pyDatetimeDate? date_str with
  | some d => some d
  | none => isoDate? (date_str.take 10)

/-- Row embeds one parsed row of the frame `parse_feed` builds: the `Date`
cell and the twelve maturity cells keyed by label. -/
structure Row where
  date : Nat × Nat × Nat
  vals : List (String × Option ℚ)
deriving DecidableEq

/-- entryVals embeds the per-maturity extraction loop of `parse_feed`
(main.py lines 176-184): for each XML field, a value is recorded only when
the element exists, its text is not `None`, its stripped text is nonempty,
and the text parses as a float. -/
def entryVals (props : EntryProps) : List (String × Option ℚ) :=
  MATURITY_FIELDS.map (fun f =>
    let val : Option ℚ :=
      match props.fieldText.lookup f.xmlName with
      | some (some txt) =>
        if stripChars txt.data ≠ [] then pyFloatOfString txt else none
      | _ => none
    (f.label, val))

/-- FeedError enumerates the exceptions `parse_feed` can raise:
`dateParse` is the uncaught `ValueError` of the date fallback parse and
`empty` is the `RuntimeError` raised when no entries parsed. -/
inductive FeedError where
  | dateParse
  | empty
deriving DecidableEq

deriving instance DecidableEq for Except

/-- parseRows embeds the entry loop of `parse_feed` (main.py lines
160-186): entries without properties or without a date element/text are
skipped, a present but unparseable date aborts the whole parse, and each
surviving entry contributes one row in encounter order. -/
def parseRows : List RawEntry → Except FeedError (List Row)
  | [] => .ok []
  | e :: rest =>
    match e.props with
    | none => parseRows rest
    | some props =>
      match props.newDateText with
      | none => parseRows rest
      | some raw =>
        match entryDate? raw with
        | none => .error .dateParse
        | some d =>
          match parseRows rest with
          | .error err => .error err
          | .ok rows => .ok (⟨d, entryVals props⟩ :: rows)

/-- dateKey linearizes a (year, month, day) triple so that `Nat` order on
keys coincides with `datetime.date` order (months and days are below 100 on
every parsed date). -/
def dateKey (d : Nat × Nat × Nat) : Nat :=
  d.1 * 10000 + d.2.1 * 100 + d.2.2

/-- rowLeDate is the comparison `df.sort_values("Date")` sorts rows by. -/
def rowLeDate (a b : Row) : Prop :=
  dateKey a.date ≤ dateKey b.date

instance : DecidableRel rowLeDate :=
  fun a b => inferInstanceAs (Decidable (dateKey a.date ≤ dateKey b.date))

instance : IsTotal Row rowLeDate :=
  ⟨fun a b => Nat.le_total (dateKey a.date) (dateKey b.date)⟩

instance : IsTrans Row rowLeDate :=
  ⟨fun _ _ _ hab hbc => Nat.le_trans hab hbc⟩

/-- parse_feed embeds `parse_feed` of `main.py` (lines 156-193) from the
entry-element level: run the entry loop, raise `RuntimeError` when zero
rows were accumulated, and otherwise sort the rows ascending by date. -/
def parse_feed (entries : List RawEntry) : Except FeedError (List Row) :=
  match parseRows entries with
  | .error err => .error err
  | .ok [] => .error .empty
  | .ok rows => .ok (List.insertionSort rowLeDate rows)

/-!
Ranking engine (`summarize`, main.py lines 217-269).

The metrics list `mdf` is embedded as a list of records with the columns
`summarize` ranks and sorts.  The `current` / `intensity` / `trend` cell
computations feeding the list are covered by `value_score`, `trend_effect`
and `compute_trend` above; the intensity cell (`current / years ** 0.5`) is
an input value here, since no property below depends on its formula, only
on how its column is ranked.  `Series.rank(ascending=False, method="min")`
assigns a value the rank `1 + (number of strictly greater values in the
column)`; `rank_desc` is that characterization, applied pointwise.
-/

/-- MetricRow embeds one element of the `metrics` list built by
`summarize` (the columns the rank/sort steps consume). -/
structure MetricRow where
  maturity : String
  years : ℚ
  currentYieldPct : ℚ
  intensityPctPerYear : ℚ
  valueScore : ℚ
deriving DecidableEq

/-- RankedRow extends a metrics row with the three rank columns and the
composite rank `summarize` adds (main.py lines 264-267). -/
structure RankedRow extends MetricRow where
  rankYield : ℚ
  rankIntensity : ℚ
  rankValue : ℚ
  compositeRank : ℚ
deriving DecidableEq

/-- rank_desc embeds `Series.rank(ascending=False, method="min")` at one
cell: the rank of value `v` within column `xs`. -/
def rank_desc (xs : List ℚ) (v : ℚ) : ℚ :=
  (xs.countP (fun w => decide (v < w)) : ℚ) + 1

/-- addRanks embeds the rank and composite-rank assignments of `summarize`
(main.py lines 261-267). -/
def addRanks (mdf : List MetricRow) : List RankedRow :=
  mdf.map (fun r =>
    let ry := rank_desc (mdf.map (fun q => q.currentYieldPct)) r.currentYieldPct
    let ri := rank_desc (mdf.map (fun q => q.intensityPctPerYear)) r.intensityPctPerYear
    let rv := rank_desc (mdf.map (fun q => q.valueScore)) r.valueScore
    { toMetricRow := r, rankYield := ry, rankIntensity := ri, rankValue := rv,
      compositeRank := (ry + ri + rv) / 3 })

/-- pyKey maps a Python string to its code-point sequence; Python compares
strings lexicographically on exactly this sequence. -/
def pyKey (s : String) : List Nat :=
  s.data.map Char.toNat

/-- rowOrd is the comparison
`mdf.sort_values(["CompositeRank", "Maturity"])` sorts rows by: composite
rank ascending, ties broken by the maturity label's Python string order. -/
def rowOrd (a b : RankedRow) : Prop :=
  a.compositeRank < b.compositeRank ∨
    (a.compositeRank = b.compositeRank ∧ pyKey a.maturity ≤ pyKey b.maturity)

instance : DecidableRel rowOrd :=
  fun a b =>
    inferInstanceAs (Decidable (a.compositeRank < b.compositeRank ∨
      (a.compositeRank = b.compositeRank ∧ pyKey a.maturity ≤ pyKey b.maturity)))

instance : IsTotal RankedRow rowOrd := by
  refine ⟨fun a b => ?_⟩
  rcases lt_trichotomy a.compositeRank b.compositeRank with h | h | h
  · exact Or.inl (Or.inl h)
  · rcases le_total (pyKey a.maturity) (pyKey b.maturity) with hk | hk
    · exact Or.inl (Or.inr ⟨h, hk⟩)
    · exact Or.inr (Or.inr ⟨h.symm, hk⟩)
  · exact Or.inr (Or.inl h)

instance : IsTrans RankedRow rowOrd := by
  refine ⟨fun a b c hab hbc => ?_⟩
  rcases hab with hab | ⟨hab, hab'⟩ <;> rcases hbc with hbc | ⟨hbc, hbc'⟩
  · exact Or.inl (hab.trans hbc)
  · exact Or.inl (hbc ▸ hab)
  · exact Or.inl (hab ▸ hbc)
  · exact Or.inr ⟨hab.trans hbc, hab'.trans hbc'⟩

/-- best_row embeds
`mdf.sort_values(["CompositeRank", "Maturity"]).iloc[0]` (main.py line
269): the head of the metrics rows sorted by `rowOrd`. -/
def best_row (rows : List RankedRow) : Option RankedRow :=
  (List.insertionSort rowOrd rows).head?

/-!
Claim theorems.
-/

/-- C1: `should_regenerate(out_dir, year_month, files_exist)` returns true
when the artifacts are missing, regardless of the marker; otherwise it
returns false when the marker's last-generated date is today's Eastern
date, and otherwise it returns true exactly when the Eastern time of day
is at or after 12:00 (43200 seconds after midnight). -/
theorem should_regenerate_characterization (files_exist : Bool)
    (last_generated : Option Nat) (today now_sec : Nat) :
    should_regenerate files_exist last_generated today now_sec = true ↔
      (files_exist = false ∨
        (last_generated ≠ some today ∧ 43200 ≤ now_sec)) := by
  unfold should_regenerate
  cases files_exist <;> by_cases h : last_generated = some today <;>
    by_cases ht : 43200 ≤ now_sec <;> simp [h, ht]

/-- C2 (counterexample): at a falling trend with `adj_pct = -1` (slope
-100 bps/month, R² = 1) and current yield 5, `summarize` computes a value
score of `5 - 1/4`, not the `5 + 1/4` the claim's formula
`current + 0.25 * abs adjPct` predicts. -/
theorem value_score_falling_cex :
    adjPct ⟨0, -100, 1⟩ < 0 ∧
    value_score 5 (some ⟨0, -100, 1⟩) = 5 - 1/4 * |adjPct ⟨0, -100, 1⟩| ∧
    value_score 5 (some ⟨0, -100, 1⟩) ≠ 5 + 1/4 * |adjPct ⟨0, -100, 1⟩| := by
  norm_num [value_score, trend_effect, adjPct, max_def, min_def]

/-- C2 (amended): in `summarize`, a negative adjusted monthly change
`adjPct = trendBpsPerMonth * max(R², 0.3) / 100` contributes
`0.25 * adjPct` to the value score — a subtraction of a quarter of its
magnitude, half the 0.5 rate charged to rising trends — so
`valueScore = current + 0.25 * adjPct` for falling trends and
`valueScore = current - 0.5 * adjPct` for rising ones. -/
theorem value_score_trend_adjustment (current : ℚ) (t : Trend) :
    (adjPct t < 0 → value_score current (some t) = current + 1/4 * adjPct t) ∧
    (0 ≤ adjPct t → value_score current (some t) = current - 1/2 * adjPct t) := by
  constructor <;> intro h
  · have h1 : max (adjPct t) 0 = 0 := max_eq_right h.le
    have h2 : min (adjPct t) 0 = adjPct t := min_eq_left h.le
    simp only [value_score, trend_effect, h1, h2]
    ring
  · have h1 : max (adjPct t) 0 = adjPct t := max_eq_left h
    have h2 : min (adjPct t) 0 = 0 := min_eq_right h
    simp only [value_score, trend_effect, h1, h2]
    ring

/-- C2 (witness): the amended statement applied to a falling trend
(slope -100 bps/month, R² = 1, so adjPct = -1) and a rising trend
(slope 200 bps/month, R² = 1/2, so adjPct = 1). -/
theorem value_score_trend_adjustment_witness :
    value_score 5 (some ⟨0, -100, 1⟩) = 5 + 1/4 * adjPct ⟨0, -100, 1⟩ ∧
    value_score 5 (some ⟨0, 200, 1/2⟩) = 5 - 1/2 * adjPct ⟨0, 200, 1/2⟩ :=
  ⟨(value_score_trend_adjustment 5 ⟨0, -100, 1⟩).1
      (by norm_num [adjPct, max_def]),
   (value_score_trend_adjustment 5 ⟨0, 200, 1/2⟩).2
      (by norm_num [adjPct, max_def])⟩

/-- C10: the trend effect of `summarize` is never positive — each of its
two terms `-0.5 * max(adjPct, 0)` and `0.25 * min(adjPct, 0)` is
non-positive — so the value score never exceeds the current yield. -/
theorem trend_effect_nonpos (current : ℚ) (tr : Option Trend) :
    trend_effect tr ≤ 0 ∧ value_score current tr ≤ current ∧
      ∀ t : Trend, -(1/2) * max (adjPct t) 0 ≤ 0 ∧ (1/4) * min (adjPct t) 0 ≤ 0 := by
  have key : ∀ t : Trend,
      -(1/2 : ℚ) * max (adjPct t) 0 ≤ 0 ∧ (1/4 : ℚ) * min (adjPct t) 0 ≤ 0 := by
    intro t
    constructor
    · nlinarith [le_max_right (adjPct t) (0 : ℚ)]
    · nlinarith [min_le_right (adjPct t) (0 : ℚ)]
  have he : trend_effect tr ≤ 0 := by
    cases tr with
    | none => simp [trend_effect]
    | some t =>
      have h := key t
      simp only [trend_effect]
      linarith [h.1, h.2]
  refine ⟨he, ?_, key⟩
  simp only [value_score]
  linarith

/-- C5: `compute_trend` returns no trend when fewer than 3 values are
present after the not-absent filter, and returns a trend as soon as 3 or
more are present; both paths are total (no exception is modelled because
none can be raised). -/
theorem compute_trend_sparse (dates : List Nat) (values : List (Option ℚ)) :
    ((presentPairs dates values).length < 3 → compute_trend dates values = none) ∧
    (3 ≤ (presentPairs dates values).length →
      ∃ t, compute_trend dates values = some t) := by
  simp only [compute_trend]
  constructor
  · intro h
    rw [if_pos h]
  · intro h
    rw [if_neg (by omega)]
    exact ⟨_, rfl⟩

/-- C5 (witness): two present points give no trend; three present points
give a trend. -/
theorem compute_trend_sparse_witness :
    compute_trend [1, 2, 3] [some 1, none, some 2] = none ∧
    ∃ t, compute_trend [1, 2, 3] [some 1, some 2, some 3] = some t :=
  ⟨(compute_trend_sparse [1, 2, 3] [some 1, none, some 2]).1 (by decide),
   (compute_trend_sparse [1, 2, 3] [some 1, some 2, some 3]).2 (by decide)⟩

/-- C6: every trend produced by `compute_trend` carries
`r2 = 1 - ssRes / ssTot` when `ssTot > 0` and `r2 = 0` when `ssTot = 0`
(which, `ssTot` being a sum of squares and hence non-negative, covers all
remaining cases: the guarded division is the only division by `ssTot`). -/
theorem compute_trend_r2_def (dates : List Nat) (values : List (Option ℚ))
    (t : Trend) (h : compute_trend dates values = some t) :
    0 ≤ ssTot (presentPairs dates values) ∧
    (ssTot (presentPairs dates values) = 0 → t.r2 = 0) ∧
    (0 < ssTot (presentPairs dates values) →
      t.r2 = 1 - ssRes (presentPairs dates values) / ssTot (presentPairs dates values)) := by
  have hnn : 0 ≤ ssTot (presentPairs dates values) := by
    unfold ssTot
    apply List.sum_nonneg
    intro x hx
    simp only [List.mem_map] at hx
    obtain ⟨p, _, rfl⟩ := hx
    positivity
  simp only [compute_trend] at h
  split at h
  · exact absurd h (by simp)
  · rw [Option.some.injEq] at h
    subst h
    refine ⟨hnn, fun hss => ?_, fun hss => ?_⟩
    · simp [hss]
    · simp [hss]

/-- C6 (witness): on the constant series (2, 2, 2) over days 1..3 the fit
is flat, `ssTot` is 0, and the returned R² is 0. -/
theorem compute_trend_r2_def_witness :
    0 ≤ ssTot (presentPairs [1, 2, 3] [some 2, some 2, some 2]) ∧
    (ssTot (presentPairs [1, 2, 3] [some 2, some 2, some 2]) = 0 →
      (⟨0, 0, 0⟩ : Trend).r2 = 0) ∧
    (0 < ssTot (presentPairs [1, 2, 3] [some 2, some 2, some 2]) →
      (⟨0, 0, 0⟩ : Trend).r2 =
        1 - ssRes (presentPairs [1, 2, 3] [some 2, some 2, some 2]) /
          ssTot (presentPairs [1, 2, 3] [some 2, some 2, some 2])) :=
  compute_trend_r2_def [1, 2, 3] [some 2, some 2, some 2] ⟨0, 0, 0⟩ (by
    have hpts : presentPairs [1, 2, 3] [some 2, some 2, some 2] =
        [(1, 2), (2, 2), (3, 2)] := by
      simp [presentPairs, List.filterMap_cons]
    norm_num [compute_trend, hpts, olsFit, ssRes, ssTot])

/-- C8: every row of the ranked metrics table carries, in each of the three
descending rank columns, the rank `1 + (number of strictly greater values
in that column)` — the best (minimum) rank of its tied group, so that rows
with equal column values receive equal ranks (a two-way tie for first gives
both rows rank 1). -/
theorem addRanks_min_tie (mdf : List MetricRow) (s : RankedRow)
    (hs : s ∈ addRanks mdf) :
    (s.rankYield =
      (mdf.countP (fun q => decide (s.currentYieldPct < q.currentYieldPct)) : ℚ) + 1) ∧
    (s.rankIntensity =
      (mdf.countP (fun q => decide (s.intensityPctPerYear < q.intensityPctPerYear)) : ℚ) + 1) ∧
    (s.rankValue =
      (mdf.countP (fun q => decide (s.valueScore < q.valueScore)) : ℚ) + 1) ∧
    ∀ s' ∈ addRanks mdf,
      (s.currentYieldPct = s'.currentYieldPct → s.rankYield = s'.rankYield) ∧
      (s.intensityPctPerYear = s'.intensityPctPerYear → s.rankIntensity = s'.rankIntensity) ∧
      (s.valueScore = s'.valueScore → s.rankValue = s'.rankValue) := by
  simp only [addRanks, List.mem_map] at hs
  obtain ⟨r, hr, rfl⟩ := hs
  refine ⟨?_, ?_, ?_, ?_⟩
  · simp [rank_desc, List.countP_map, Function.comp_def]
  · simp [rank_desc, List.countP_map, Function.comp_def]
  · simp [rank_desc, List.countP_map, Function.comp_def]
  · intro s' hs'
    simp only [addRanks, List.mem_map] at hs'
    obtain ⟨r', hr', rfl⟩ := hs'
    refine ⟨fun h => ?_, fun h => ?_, fun h => ?_⟩ <;>
      simp only [rank_desc] at h ⊢ <;> rw [h]

/-- mdfW is a concrete metrics table with a two-way tie for first in the
current-yield column, used to instantiate the rank tie-break claim. -/
def mdfW : List MetricRow :=
  [⟨"2Y", 2, 5, 5, 5⟩, ⟨"10Y", 10, 5, 4, 3⟩, ⟨"1M", 1, 4, 3, 3⟩]

/-- rankedW is the ranked row `addRanks mdfW` produces for the second
metrics row of `mdfW`: tied for first on current yield, it receives
`RankYield = 1` (not 2). -/
def rankedW : RankedRow :=
  ⟨⟨"10Y", 10, 5, 4, 3⟩, 1, 2, 2, 5/3⟩

/-- C8 (witness): the rank characterization applied to `rankedW`, whose
current yield 5 ties the first row of `mdfW`; its yield rank is
`(count of strictly greater) + 1 = 0 + 1 = 1`, the best rank of the tied
group. -/
theorem addRanks_min_tie_witness :
    (rankedW.rankYield =
      (mdfW.countP (fun q => decide (rankedW.currentYieldPct < q.currentYieldPct)) : ℚ) + 1) ∧
    (rankedW.rankIntensity =
      (mdfW.countP (fun q => decide (rankedW.intensityPctPerYear < q.intensityPctPerYear)) : ℚ) + 1) ∧
    (rankedW.rankValue =
      (mdfW.countP (fun q => decide (rankedW.valueScore < q.valueScore)) : ℚ) + 1) ∧
    ∀ s' ∈ addRanks mdfW,
      (rankedW.currentYieldPct = s'.currentYieldPct → rankedW.rankYield = s'.rankYield) ∧
      (rankedW.intensityPctPerYear = s'.intensityPctPerYear →
        rankedW.rankIntensity = s'.rankIntensity) ∧
      (rankedW.valueScore = s'.valueScore → rankedW.rankValue = s'.rankValue) :=
  addRanks_min_tie mdfW rankedW (by
    simp only [mdfW, addRanks, rankedW, List.map_cons, List.map_nil, rank_desc]
    norm_num [List.countP, List.countP.go])

/-- C9: the best-overall row selected by `summarize` is a row of the
metrics table that every row weakly follows in the sort order
`(CompositeRank ascending, then maturity label in Python string order)`;
in particular its composite rank is the table's minimum. -/
theorem best_row_min (rows : List RankedRow) (r : RankedRow)
    (h : best_row rows = some r) :
    r ∈ rows ∧ (∀ q ∈ rows, rowOrd r q) ∧
      ∀ q ∈ rows, r.compositeRank ≤ q.compositeRank := by
  unfold best_row at h
  cases hs : List.insertionSort rowOrd rows with
  | nil => rw [hs] at h; exact absurd h (by simp)
  | cons a l =>
    rw [hs] at h
    simp only [List.head?_cons, Option.some.injEq] at h
    subst h
    have hperm := List.perm_insertionSort rowOrd rows
    rw [hs] at hperm
    have hsorted := List.sorted_insertionSort rowOrd rows
    rw [hs] at hsorted
    have hmem : ∀ q ∈ rows, rowOrd a q := by
      intro q hq
      rcases List.mem_cons.mp (hperm.mem_iff.mpr hq) with rfl | hq'
      · exact Or.inr ⟨rfl, le_refl _⟩
      · exact List.rel_of_pairwise_cons hsorted hq'
    refine ⟨hperm.mem_iff.mp (List.mem_cons_self a l), hmem, fun q hq => ?_⟩
    rcases hmem q hq with h1 | ⟨h1, _⟩
    · exact le_of_lt h1
    · exact le_of_eq h1

/-- tieRow1M and [[tieRow10Y]] share the lowest composite rank 1; the code
breaks the tie by Python string order on the label. -/
def tieRow1M : RankedRow :=
  ⟨⟨"1M", 1, 5, 5, 5⟩, 1, 1, 1, 1⟩

/-- tieRow10Y ties `tieRow1M` on composite rank; its label sorts first in
lexicographic string order because the character 0 precedes the character
M. -/
def tieRow10Y : RankedRow :=
  ⟨⟨"10Y", 10, 4, 4, 4⟩, 2, 2, 2, 1⟩

/-- C9 (witness): with composite ranks tied at 1, the best row of
`[tieRow1M, tieRow10Y]` is the 10Y row — lexicographic label order, not
numeric tenor order — and it is minimal in the sort order against both
rows. -/
theorem best_row_min_witness :
    tieRow10Y ∈ [tieRow1M, tieRow10Y] ∧
      (∀ q ∈ [tieRow1M, tieRow10Y], rowOrd tieRow10Y q) ∧
      ∀ q ∈ [tieRow1M, tieRow10Y],
        tieRow10Y.compositeRank ≤ q.compositeRank :=
  best_row_min [tieRow1M, tieRow10Y] tieRow10Y (by decide)

/-- goodEntry is a feed entry with a parseable datetime-styled date and no
value elements. -/
def goodEntry : RawEntry := ⟨some ⟨some "2025-08-01T00:00:00", []⟩⟩

/-- badDateEntry is a feed entry whose date text parses under neither the
datetime parser nor the 10-character date fallback. -/
def badDateEntry : RawEntry := ⟨some ⟨some "garbage", []⟩⟩

/-- emptyVals is the maturity cell list of an entry carrying no value
elements: every label mapped to an absent value. -/
def emptyVals : List (String × Option ℚ) :=
  MATURITY_FIELDS.map (fun f => (f.label, none))

/-- C3 (counterexample): an entry whose date text is present but
unparseable is not skipped: appended after a good entry it turns the whole
parse into an uncaught exception instead of the good entry's table. -/
theorem parse_feed_skip_cex :
    parse_feed [goodEntry, badDateEntry] = .error .dateParse ∧
    parse_feed [goodEntry] = .ok [⟨(2025, 8, 1), emptyVals⟩] := by
  decide

/-- C3 (amended): `parse_feed` silently skips an entry whose date field is
missing — properties element absent, date element absent, or date text
null — producing no row for it; but an entry whose date text is present
and parseable by neither date parser makes `parse_feed` raise the
fallback's uncaught `ValueError` instead of skipping the entry. -/
theorem parse_feed_skip_or_raise (e : RawEntry) (rest : List RawEntry) :
    (e.props = none → parse_feed (e :: rest) = parse_feed rest) ∧
    (∀ p, e.props = some p → p.newDateText = none →
      parse_feed (e :: rest) = parse_feed rest) ∧
    (∀ p raw, e.props = some p → p.newDateText = some raw → entryDate? raw = none →
      parse_feed (e :: rest) = .error .dateParse) := by
  refine ⟨fun hp => ?_, fun p hp hd => ?_, fun p raw hp hd hraw => ?_⟩
  · have hpr : parseRows (e :: rest) = parseRows rest := by
      simp only [parseRows, hp]
    unfold parse_feed
    rw [hpr]
  · have hpr : parseRows (e :: rest) = parseRows rest := by
      simp only [parseRows, hp, hd]
    unfold parse_feed
    rw [hpr]
  · have hpr : parseRows (e :: rest) = .error .dateParse := by
      simp only [parseRows, hp, hd, hraw]
    unfold parse_feed
    rw [hpr]

/-- C3 (witness): a propertyless entry and a dateless entry are both
skipped in front of a good entry; a present-but-unparseable date text
raises. -/
theorem parse_feed_skip_or_raise_witness :
    parse_feed [⟨none⟩, goodEntry] = parse_feed [goodEntry] ∧
    parse_feed [⟨some ⟨none, []⟩⟩, goodEntry] = parse_feed [goodEntry] ∧
    parse_feed [badDateEntry, goodEntry] = .error .dateParse :=
  ⟨(parse_feed_skip_or_raise ⟨none⟩ [goodEntry]).1 rfl,
   (parse_feed_skip_or_raise ⟨some ⟨none, []⟩⟩ [goodEntry]).2.1 ⟨none, []⟩ rfl rfl,
   (parse_feed_skip_or_raise badDateEntry [goodEntry]).2.2 ⟨some "garbage", []⟩
     "garbage" rfl rfl (by decide)⟩

/-- parseRows can only raise the date-parse error: the empty-feed error is
raised after the loop, never inside it. -/
theorem parseRows_error_is_dateParse (entries : List RawEntry) (err : FeedError)
    (h : parseRows entries = .error err) : err = FeedError.dateParse := by
  induction entries with
  | nil => simp [parseRows] at h
  | cons e rest ih =>
    simp only [parseRows] at h
    cases hp : e.props with
    | none =>
      simp only [hp] at h
      exact ih h
    | some p =>
      simp only [hp] at h
      cases hd : p.newDateText with
      | none =>
        simp only [hd] at h
        exact ih h
      | some raw =>
        simp only [hd] at h
        cases he : entryDate? raw with
        | none =>
          simp only [he, Except.error.injEq] at h
          exact h.symm
        | some d =>
          simp only [he] at h
          cases hr : parseRows rest with
          | error e2 =>
            simp only [hr, Except.error.injEq] at h
            subst h
            exact ih hr
          | ok rows =>
            simp [hr] at h

/-- goodEntry2 is a second well-formed entry, with a bare-date text. -/
def goodEntry2 : RawEntry := ⟨some ⟨some "2025-08-04", []⟩⟩

/-- badDateEntry2 is a second entry with an unparseable date text. -/
def badDateEntry2 : RawEntry := ⟨some ⟨some "not-a-date", []⟩⟩

/-- C4 (counterexample): on a feed whose first entry parses to a row and
whose second entry has an unparseable date text, `parse_feed` raises — an
untyped date error, not the empty-feed error — even though a row parsed,
against the claim that one parsed row guarantees a returned table. -/
theorem parse_feed_empty_iff_cex :
    parseRows [goodEntry2] = .ok [⟨(2025, 8, 4), emptyVals⟩] ∧
    parse_feed [goodEntry2, badDateEntry2] = .error .dateParse := by
  decide

/-- C4 (amended): `parse_feed` raises the typed empty-feed error exactly
when the entry loop completes without a date failure and accumulates zero
rows; a present-but-unparseable date raises a different, untyped error no
matter how many rows parsed; and whenever the loop completes with at least
one row, `parse_feed` returns the sorted table and does not raise. -/
theorem parse_feed_empty_characterization (entries : List RawEntry) :
    (parse_feed entries = .error .empty ↔ parseRows entries = .ok []) ∧
    (∀ rows, parseRows entries = .ok rows → rows ≠ [] →
      parse_feed entries = .ok (List.insertionSort rowLeDate rows)) := by
  constructor
  · constructor
    · intro h
      unfold parse_feed at h
      cases hr : parseRows entries with
      | error err =>
        rw [hr] at h
        have hdp := parseRows_error_is_dateParse entries err hr
        simp only [Except.error.injEq] at h
        rw [hdp] at h
        exact absurd h (by simp)
      | ok rows =>
        rw [hr] at h
        cases rows with
        | nil => rfl
        | cons a l => exact absurd h (by simp)
    · intro h
      unfold parse_feed
      rw [h]
  · intro rows hr hne
    unfold parse_feed
    rw [hr]
    cases rows with
    | nil => exact absurd rfl hne
    | cons a l => rfl

/-- C4 (witness): the amended statement applied to the one-good-entry
feed: its single row comes back sorted, with no error. -/
theorem parse_feed_empty_characterization_witness :
    parse_feed [goodEntry2] =
      .ok (List.insertionSort rowLeDate [⟨(2025, 8, 4), emptyVals⟩]) :=
  (parse_feed_empty_characterization [goodEntry2]).2
    [⟨(2025, 8, 4), emptyVals⟩] (by decide) (by decide)

/-- C7: every table `parse_feed` returns is non-decreasing in the date
column from the first row to the last; the sort is total, so ties on equal
dates cannot make it fail (their relative order is simply whatever the
sort produces). -/
theorem parse_feed_sorted (entries : List RawEntry) (rows : List Row)
    (h : parse_feed entries = .ok rows) :
    rows.Pairwise rowLeDate := by
  unfold parse_feed at h
  cases hr : parseRows entries with
  | error err =>
    rw [hr] at h
    exact absurd h (by simp)
  | ok rs =>
    rw [hr] at h
    cases rs with
    | nil => exact absurd h (by simp)
    | cons a l =>
      have h2 : (Except.ok (List.insertionSort rowLeDate (a :: l)) :
          Except FeedError (List Row)) = .ok rows := h
      simp only [Except.ok.injEq] at h2
      subst h2
      exact List.sorted_insertionSort rowLeDate (a :: l)

/-- tieEntryA is an entry dated 2025-08-03, listed before two entries that
tie each other on 2025-08-01. -/
def tieEntryA : RawEntry := ⟨some ⟨some "2025-08-03", []⟩⟩

/-- tieEntryB is the first of two entries sharing the date 2025-08-01. -/
def tieEntryB : RawEntry := ⟨some ⟨some "2025-08-01", []⟩⟩

/-- tieEntryC shares tieEntryB's date, written in the datetime style. -/
def tieEntryC : RawEntry := ⟨some ⟨some "2025-08-01T00:00:00", []⟩⟩

/-- C7 (witness): a feed given out of order and containing a duplicated
date parses to a table whose dates are non-decreasing. -/
theorem parse_feed_sorted_witness :
    List.Pairwise rowLeDate
      [⟨(2025, 8, 1), emptyVals⟩, ⟨(2025, 8, 1), emptyVals⟩,
        ⟨(2025, 8, 3), emptyVals⟩] :=
  parse_feed_sorted [tieEntryA, tieEntryB, tieEntryC]
    [⟨(2025, 8, 1), emptyVals⟩, ⟨(2025, 8, 1), emptyVals⟩,
      ⟨(2025, 8, 3), emptyVals⟩] (by decide)
